import Mathlib

set_option linter.unusedVariables false
set_option maxRecDepth 40000

namespace Wipo

/-! # Shallow embedding of `src/wipo_crawler.py`

The crawler works on the DOM that BeautifulSoup builds from the rendered
HTML.  We embed documents as trees of nodes; the raw HTML string that the
Python code occasionally inspects directly (the check whether "CPC" occurs in `html`) is recovered by
serialising the tree (`renderList`). -/

/-- A node of the rendered document: either a text node or an element with a
tag name, an attribute list and child nodes. -/
inductive Node where
  | text : String → Node
  | elem : String → List (String × String) → List Node → Node
deriving Repr

/-- Attribute lookup on an element (`link["href"]`, `tag["class"]`). -/
def Node.attr : Node → String → Option String
  | .text _, _ => none
  | .elem _ attrs _, key => (attrs.find? (fun kv => kv.1 == key)).map (·.2)

/-- The children of a node (empty for text nodes). -/
def Node.children : Node → List Node
  | .text _ => []
  | .elem _ _ cs => cs

/-- Does the node carry the given tag name (text nodes carry none)? -/
def Node.tagIs : Node → String → Bool
  | .text _, _ => false
  | .elem t _ _, name => t == name

/-- The whitespace characters relevant to class splitting and to the Python
`str.strip`. -/
def wsChar (c : Char) : Bool := c == ' ' || c == '\t' || c == '\n' || c == '\r'

/-- Split a character list on runs of whitespace (the `cur` accumulator holds
the current word reversed); empty words are dropped. -/
def splitWS (cur : List Char) : List Char → List String
  | [] => if cur.isEmpty then [] else [String.mk cur.reverse]
  | c :: rest =>
    if wsChar c then
      if cur.isEmpty then splitWS [] rest
      else String.mk cur.reverse :: splitWS [] rest
    else splitWS (c :: cur) rest

/-- Model of the Python `str.strip()` on the whitespace the crawler meets. -/
def pyStrip (s : String) : String :=
  String.mk (((s.data.dropWhile wsChar).reverse.dropWhile wsChar).reverse)

/-- Lower-casing, character by character. -/
def strLower (s : String) : String := String.mk (s.data.map Char.toLower)

/-- Join a list of strings on a separator. -/
def joinSep (sep : String) : List String → String
  | [] => ""
  | [s] => s
  | s :: rest => s ++ sep ++ joinSep sep rest

/-- The whitespace-separated class list of an element; a `class_=` filter in
BeautifulSoup matches when the wanted class is any one of these. -/
def Node.classList (n : Node) : List String :=
  splitWS [] ((n.attr "class").getD "").data

/-- BeautifulSoup `class_=c` filter. -/
def Node.hasClass (n : Node) (c : String) : Bool :=
  n.classList.contains c

/-- Model of `tag.string` in BeautifulSoup: the unique string child, looking through a
unique element child; `none` when the node has zero or several children. -/
def Node.str : Node → Option String
  | .text s => some s
  | .elem _ _ [c] => c.str
  | .elem _ _ (_ :: _ :: _) => none
  | .elem _ _ [] => none

/-- Does the list `needle` occur at the head of the second list? -/
def listStarts : List Char → List Char → Bool
  | [], _ => true
  | _ :: _, [] => false
  | a :: as, b :: bs => a == b && listStarts as bs

/-- Does `needle` occur contiguously anywhere in the list? -/
def listHasSub (needle : List Char) : List Char → Bool
  | [] => needle.isEmpty
  | c :: rest => listStarts needle (c :: rest) || listHasSub needle rest

/-- Substring occurrence, the Python `pat in hay` check. -/
def strHasSub (hay pat : String) : Bool := listHasSub pat.data hay.data

/-- Semantics of the `re.compile(pat, re.IGNORECASE)` string filters of the crawler: every
pattern it uses is literal text, so `re.search` is case-insensitive substring
occurrence. -/
def imatch (pat s : String) : Bool := strHasSub (strLower s) (strLower pat)

mutual
/-- All descendant-or-self nodes of one root matching `p`, in document
(pre-)order: BeautifulSoup `find_all` semantics. -/
def findAllNode (p : Node → Bool) : Node → List Node
  | .text s => if p (.text s) then [.text s] else []
  | .elem t a cs =>
    (if p (.elem t a cs) then [Node.elem t a cs] else []) ++ findAllList p cs

/-- Run of `find_all` over a sequence of roots (the children of an element, or the
top-level nodes of the document). -/
def findAllList (p : Node → Bool) : List Node → List Node
  | [] => []
  | n :: rest => findAllNode p n ++ findAllList p rest
end

/-- BeautifulSoup `find`: the first match in document order. -/
def findFirstIn (p : Node → Bool) (cs : List Node) : Option Node :=
  (findAllList p cs).head?

mutual
/-- First matching element in document order, together with its ancestor
chain (nearest ancestor first): `find` plus the information that a later
`find_parent` call needs.  The crawler only ever searches for elements, so
text nodes never match. -/
def findPathNode (p : Node → Bool) (anc : List Node) : Node → Option (Node × List Node)
  | .text _ => none
  | .elem t a cs =>
    if p (.elem t a cs) then some (.elem t a cs, anc)
    else findPathList p (.elem t a cs :: anc) cs

/-- Run of `findPathNode` over a sequence of roots. -/
def findPathList (p : Node → Bool) (anc : List Node) : List Node → Option (Node × List Node)
  | [] => none
  | n :: rest =>
    match findPathNode p anc n with
    | some r => some r
    | none => findPathList p anc rest
end

mutual
/-- The strings of all text descendants, in document order. -/
def textsNode : Node → List String
  | .text s => [s]
  | .elem _ _ cs => textsList cs

/-- Run of `textsNode` over a sequence of roots. -/
def textsList : List Node → List String
  | [] => []
  | n :: rest => textsNode n ++ textsList rest
end

/-- Model of `get_text(strip=True, separator=sep)`: strip every string, drop the ones
that become empty, join on the separator. -/
def getTextStrip (sep : String) (n : Node) : String :=
  joinSep sep (((textsNode n).map pyStrip).filter (fun s => !(s == "")))

/-- Serialised attributes of an element, used to recover the raw HTML text. -/
def renderAttrs : List (String × String) → String
  | [] => ""
  | (k, v) :: rest => " " ++ k ++ "=\x22" ++ v ++ "\x22" ++ renderAttrs rest

mutual
/-- Serialisation of one node back to HTML text. -/
def renderNode : Node → String
  | .text s => s
  | .elem t a cs => "<" ++ t ++ renderAttrs a ++ ">" ++ renderList cs ++ "</" ++ t ++ ">"

/-- Serialisation of a document (the `html` string the Python code holds). -/
def renderList : List Node → String
  | [] => ""
  | n :: rest => renderNode n ++ renderList rest
end

/-- Is the node a `<span class="ps-field--label">` whose string matches the
wanted label text case-insensitively? -/
def isLabelSpan (label_text : String) (n : Node) : Bool :=
  n.tagIs "span" && n.hasClass "ps-field--label" &&
    (match n.str with
     | some s => imatch label_text s
     | none => false)

/-- Is the node a `<div class="ps-field">` (the field container that
`find_parent` looks for)? -/
def isFieldDiv (n : Node) : Bool := n.tagIs "div" && n.hasClass "ps-field"

/-- Model of `extract_field_by_label` (src/wipo_crawler.py:184-221): locate the label
span, ascend to the `ps-field` container, take its first `ps-field--value`
span, return its stripped text, normalising empty to `none`; any missing step
yields `none`. -/
def extract_field_by_label (soup : List Node) (label_text : String) : Option String :=
  match findPathList (isLabelSpan label_text) [] soup with
  | none => none
  | some (_, anc) =>
    match anc.find? isFieldDiv with
    | none => none
    | some field_div =>
      match findFirstIn (fun n => n.tagIs "span" && n.hasClass "ps-field--value") field_div.children with
      | none => none
      | some value_span =>
        let text := getTextStrip " " value_span
        if text == "" then none else some text

/-- Model of `extract_list_field` (src/wipo_crawler.py:224-265): label span →
`ps-field` container → first `biblio-person-list` list → the non-empty names
of its `li` entries; any missing step yields `[]`. -/
def extract_list_field (soup : List Node) (label_text : String) : List String :=
  match findPathList (isLabelSpan label_text) [] soup with
  | none => []
  | some (_, anc) =>
    match anc.find? isFieldDiv with
    | none => []
    | some field_div =>
      match findFirstIn (fun n => n.tagIs "ul" && n.hasClass "biblio-person-list") field_div.children with
      | none => []
      | some person_list =>
        (findAllList (fun n => n.tagIs "li") person_list.children).filterMap
          (fun li =>
            match findFirstIn (fun n => n.tagIs "span" && n.hasClass "biblio-person-list--name") li.children with
            | none => none
            | some name_span =>
              let name := getTextStrip "" name_span
              if name == "" then none else some name)

/-- Model of `extract_ipc_codes` (src/wipo_crawler.py:268-302): "IPC" label span →
`ps-field` container → the non-empty link texts of its
`patent-classification` entries, in document order; any missing step yields
`[]`. -/
def extract_ipc_codes (soup : List Node) : List String :=
  match findPathList (isLabelSpan "IPC") [] soup with
  | none => []
  | some (_, anc) =>
    match anc.find? isFieldDiv with
    | none => []
    | some field_div =>
      (findAllList (fun n => n.tagIs "div" && n.hasClass "patent-classification") field_div.children).filterMap
        (fun classification =>
          match findFirstIn (fun n => n.tagIs "a") classification.children with
          | none => none
          | some link =>
            let code := getTextStrip "" link
            if code == "" then none else some code)

/-- The `biblio_data` mapping built by `parse_biblio_data`. -/
structure BiblioData where
  publication_number : Option String
  publication_date : Option String
  application_number : Option String
  filing_date : Option String
  title : Option String
  abstract : Option String
  applicants : List String
  inventors : List String
  ipc_codes : List String
  cpc_codes : List String
  priority_data : Option String
deriving Repr, DecidableEq

/-- The record `parse_biblio_data` returns.  `biblio_data = none` models the
empty mapping `{}` that the record still holds when an exception interrupts
field assembly. -/
structure PatentData where
  wo_number : String
  source : String
  extraction_successful : Bool
  biblio_data : Option BiblioData
deriving Repr, DecidableEq

/-- Python truthiness of an optional string (`if pub_number and title`). -/
def optTruthy : Option String → Bool
  | none => false
  | some s => !(s == "")

/-- Model of `parse_biblio_data` (src/wipo_crawler.py:305-368).  The `interrupted`
flag models an exception thrown inside the `try` block before field assembly
completes: the except-arm returns the initial record (empty mapping, success
flag still false).  `html` is the parsed document; the raw string the Python
code receives is `renderList html`. -/
def parse_biblio_data_run (interrupted : Bool) (html : List Node) (wo_number : String) :
    PatentData :=
  if interrupted then
    { wo_number := wo_number, source := "WIPO", extraction_successful := false,
      biblio_data := none }
  else
    let pub_number := extract_field_by_label html "Publication Number"
    let pub_date := extract_field_by_label html "Publication Date"
    let app_number := extract_field_by_label html "International Application No"
    let filing_date := extract_field_by_label html "International Filing Date"
    let title := extract_field_by_label html "Title"
    let abstract := extract_field_by_label html "Abstract"
    let priority := extract_field_by_label html "Priority Data"
    let applicants := extract_list_field html "Applicants"
    let inventors := extract_list_field html "Inventors"
    let ipc_codes := extract_ipc_codes html
    let cpc_codes := if strHasSub (renderList html) "CPC" then extract_ipc_codes html else []
    { wo_number := wo_number, source := "WIPO",
      extraction_successful := optTruthy pub_number && optTruthy title,
      biblio_data := some
        { publication_number := pub_number, publication_date := pub_date,
          application_number := app_number, filing_date := filing_date,
          title := title, abstract := abstract, applicants := applicants,
          inventors := inventors, ipc_codes := ipc_codes,
          cpc_codes := cpc_codes, priority_data := priority } }

/-- Function `parse_biblio_data` on the non-exceptional path. -/
def parse_biblio_data (html : List Node) (wo_number : String) : PatentData :=
  parse_biblio_data_run false html wo_number

/-! ## Identifier discovery (`search_wipo_wo_numbers`) -/

/-- Try to match `docId=WO` followed by exactly ten digits at the head of the
character list, returning the captured group `WO` + digits. -/
def woMatchAt (cs : List Char) : Option String :=
  let pre := "docId=WO".data
  if listStarts pre cs then
    let ds := (cs.drop pre.length).take 10
    if ds.length = 10 && ds.all Char.isDigit then some ("WO" ++ String.mk ds)
    else none
  else none

/-- Model of `re.search` with the pattern docId=(WO then 4 plus 6 digits): the
leftmost match, scanning positions left to right. -/
def woSearch : List Char → Option String
  | [] => none
  | c :: rest =>
    match woMatchAt (c :: rest) with
    | some w => some w
    | none => woSearch rest

/-- The WO number captured from one hyperlink target, when present. -/
def extractDocId (href : String) : Option String := woSearch href.data

/-- The WO numbers appended by the scan loop of `search_wipo_wo_numbers`
(src/wipo_crawler.py:86-91): every `<a href>` link whose target contains
`detail.jsf?docId=` and matches the WO pattern, in document order, with
repetitions. -/
def rawWoNumbers (soup : List Node) : List String :=
  (findAllList (fun n => n.tagIs "a" && (n.attr "href").isSome) soup).filterMap
    (fun link =>
      match link.attr "href" with
      | none => none
      | some href =>
        if strHasSub href "detail.jsf?docId=" then extractDocId href else none)

/-- Model of `list(dict.fromkeys(l))`: deduplication keeping the first occurrence of
every element, written with an accumulator of the keys already seen. -/
def dedupFirst (seen : List String) : List String → List String
  | [] => []
  | x :: xs => if x ∈ seen then dedupFirst seen xs else x :: dedupFirst (x :: seen) xs

/-- Model of `search_wipo_wo_numbers` (src/wipo_crawler.py:59-101): on transport
failure (`httpOk = false`) the except-arm returns `[]`; otherwise scan the
response body for WO numbers, deduplicate preserving first-seen order and
truncate to `max_results`. -/
def search_wipo_wo_numbers (httpOk : Bool) (soup : List Node) (max_results : Nat) :
    List String :=
  if httpOk then (dedupFirst [] (rawWoNumbers soup)).take max_results
  else []

/-! ## Page acquisition (`fetch_detail_html`) -/

/-- Observable events of one `fetch_detail_html` call, in the order they
happen.  `playwrightStopped` is the exit of the `async with async_playwright`
block, which terminates the driver and with it any browser it launched. -/
inductive FetchEv where
  | launched
  | navigated
  | navTimedOut
  | settleWaited
  | settleTimedOut
  | gateWaited
  | gateTimedOut
  | captured
  | browserClosed
  | playwrightStopped
deriving Repr, DecidableEq

/-- The await point at which the outer per-identifier ceiling (or any other
cancellation) interrupts the call, when it does. -/
inductive CancelPoint where
  | atLaunch
  | atNav
  | atSettle
  | atGate
  | atCapture
deriving Repr, DecidableEq

/-- The environment one `fetch_detail_html` call runs against: which bounded
waits succeed, what the page contains, and whether the outer ceiling cancels
the call at some await point. -/
structure FetchEnv where
  launchOk : Bool
  navOk : Bool
  settleOk : Bool
  gateOk : Bool
  content : List Node
  cancel : Option CancelPoint
deriving Repr

/-- Result of one `fetch_detail_html` call: the rendered document, the
`None` return, or propagation of `CancelledError` up to the
`asyncio.wait_for` in the caller. -/
inductive FetchOutcome where
  | ok : List Node → FetchOutcome
  | failed
  | cancelled
deriving Repr

/-- Is the outcome the cancelled one? -/
def FetchOutcome.isCancelled : FetchOutcome → Bool
  | .cancelled => true
  | _ => false

/-- Model of `fetch_detail_html` (src/wipo_crawler.py:108-177) as a step-by-step
state machine over `FetchEnv`, returning the outcome and the event trace.
A `PlaywrightTimeout` of the networkidle wait is caught locally and the call
proceeds; a timeout of the `Publication Number` selector closes the browser
and returns `None`; navigation timeouts and launch failures are caught by
the enclosing handlers; `CancelledError` is a `BaseException`, so no
`except` arm catches it and the context-manager exit still runs. -/
def fetch_detail_html (env : FetchEnv) : FetchOutcome × List FetchEv :=
  if env.cancel = some .atLaunch then (.cancelled, [.playwrightStopped])
  else if !env.launchOk then (.failed, [.playwrightStopped])
  else if env.cancel = some .atNav then (.cancelled, [.launched, .playwrightStopped])
  else if !env.navOk then
    (.failed, [.launched, .navTimedOut, .browserClosed, .playwrightStopped])
  else if env.cancel = some .atSettle then
    (.cancelled, [.launched, .navigated, .playwrightStopped])
  else
    let settleEvs := if env.settleOk then [FetchEv.settleWaited] else [FetchEv.settleTimedOut]
    if env.cancel = some .atGate then
      (.cancelled, [.launched, .navigated] ++ settleEvs ++ [.playwrightStopped])
    else if !env.gateOk then
      (.failed, [.launched, .navigated] ++ settleEvs ++
        [.gateTimedOut, .browserClosed, .playwrightStopped])
    else if env.cancel = some .atCapture then
      (.cancelled, [.launched, .navigated] ++ settleEvs ++
        [.gateWaited, .playwrightStopped])
    else
      (.ok env.content, [.launched, .navigated] ++ settleEvs ++
        [.gateWaited, .captured, .browserClosed, .playwrightStopped])

/-! ## Per-identifier unit (`process_wo_safe`) -/

/-- Model of `_process_wo_internal` followed by the `asyncio.wait_for` wrapper of
`process_wo_safe` (src/wipo_crawler.py:375-420).  A cancelled fetch is the
outer 60 s ceiling firing: `wait_for` converts it to `asyncio.TimeoutError`,
caught and turned into `None`.  `if not html` also rejects an empty capture.
A record is returned only when `extraction_successful` holds. -/
def process_wo_safe (env : String → FetchEnv) (wo_number : String) : Option PatentData :=
  match fetch_detail_html (env wo_number) with
  | (.cancelled, _) => none
  | (.failed, _) => none
  | (.ok doc, _) =>
    if renderList doc == "" then none
    else
      let data := parse_biblio_data doc wo_number
      if data.extraction_successful then some data else none

/-! ## Batch coordinator (`search_wipo_patents`) -/

/-! ### IEEE binary64 model of the progress percentage

The source computes `int((i / total) * 100)` (src/wipo_crawler.py:475) in
Python float arithmetic: `i / total` is the correctly rounded binary64
quotient, the product with 100 is again correctly rounded, `int` truncates
toward zero.  Both intermediate values are non-negative, so a float is
represented by its exact value `m * 2 ^ k` with `m : Nat` and `k : Int`,
and rounding is round-to-nearest, ties to even, at 53 significant bits.
Subnormal underflow and overflow are not modelled: with `1 ≤ i` and
`1 ≤ total` of any realisable batch the quotient lies in the normal range. -/

/-- Bit length of a natural number (`0` for `0`), written with a fuel
argument so that it reduces step by step in the kernel. -/
def bitLenAux : Nat → Nat → Nat
  | 0, _ => 0
  | fuel + 1, n => if n = 0 then 0 else bitLenAux fuel (n / 2) + 1

/-- Bit length: the least `L` with `n < 2 ^ L`. -/
def bitLen (n : Nat) : Nat := bitLenAux n n

/-- Does `2 ^ e ≤ i / total` hold as rationals (for `total > 0`)? -/
def pow2LeRat (e : Int) (i total : Nat) : Bool :=
  if 0 ≤ e then decide (total * 2 ^ e.toNat ≤ i)
  else decide (total ≤ i * 2 ^ (-e).toNat)

/-- Nearest integer to `N / D` (for `D > 0`), ties to even: the rounding
rule of IEEE binary64. -/
def roundHalfEven (N D : Nat) : Nat :=
  let q := N / D
  let r := N % D
  if 2 * r > D then q + 1
  else if 2 * r < D then q
  else if q % 2 = 0 then q else q + 1

/-- The binary64 value of the Python true division `i / total`, returned as
the pair `(m, k)` of an exact value `m * 2 ^ k`: the quotient is scaled so
that 53 significant bits remain, then rounded half to even. -/
def floatDivNat (i total : Nat) : Nat × Int :=
  if i = 0 ∨ total = 0 then (0, 0)
  else
    let e0 : Int := ((bitLen i : Int) - 1) - ((bitLen total : Int) - 1)
    let e : Int := if pow2LeRat e0 i total then e0 else e0 - 1
    let s : Int := 52 - e
    let m :=
      if 0 ≤ s then roundHalfEven (i * 2 ^ s.toNat) total
      else roundHalfEven i (total * 2 ^ (-s).toNat)
    (m, e - 52)

/-- The binary64 product of the value `m * 2 ^ k` with the exactly
representable 100: the exact product rounded back to 53 significant bits. -/
def floatMul100 (m : Nat) (k : Int) : Nat × Int :=
  let p := m * 100
  let L := bitLen p
  if L ≤ 53 then (p, k)
  else (roundHalfEven p (2 ^ (L - 53)), k + (L - 53))

/-- Truncation toward zero of the non-negative value `m * 2 ^ k`: the
Python `int()` of a float. -/
def floatTruncNat (m : Nat) (k : Int) : Nat :=
  if 0 ≤ k then m * 2 ^ k.toNat else m / 2 ^ (-k).toNat

/-- Model of `int((i / total) * 100)` (src/wipo_crawler.py:475) in IEEE
binary64 arithmetic. -/
def pyPercent (i total : Nat) : Nat :=
  let d := floatDivNat i total
  let pr := floatMul100 d.1 d.2
  floatTruncNat pr.1 pr.2

/-- One progress-callback invocation. -/
structure ProgressEvent where
  percent : Nat
  message : String
deriving Repr, DecidableEq

/-- The callback arguments built at src/wipo_crawler.py:475-476 for the
`i`-th identifier (1-based) of `total`. -/
def progressEvent (total i : Nat) (wo_number : String) : ProgressEvent :=
  { percent := pyPercent i total, message := s!"Processing {wo_number} ({i}/{total})" }

/-- The `for i, wo_number in enumerate(wo_numbers, 1)` loop of
`search_wipo_patents` (src/wipo_crawler.py:471-486): fire the progress
callback, run the isolated unit, append its record when it returns one,
continue unconditionally. -/
def runLoop (proc : String → Option PatentData) (total : Nat) :
    Nat → List String → List PatentData × List ProgressEvent
  | _, [] => ([], [])
  | i, wo_number :: rest =>
    let ev := progressEvent total i wo_number
    let r := runLoop proc total (i + 1) rest
    match proc wo_number with
    | some data => (data :: r.1, ev :: r.2)
    | none => (r.1, ev :: r.2)

/-- Model of `search_wipo_patents` (src/wipo_crawler.py:427-490), parameterised by the
identifiers Discovery returned and by the per-identifier unit.  Returns the
accumulated records and the sequence of progress-callback invocations. -/
def search_wipo_patents (discovered : List String) (max_results : Nat)
    (proc : String → Option PatentData) : List PatentData × List ProgressEvent :=
  let ev0 : ProgressEvent := { percent := 0, message := "Searching WIPO..." }
  if discovered.isEmpty then ([], [ev0])
  else
    let wo_numbers := discovered.take max_results
    let total := wo_numbers.length
    let r := runLoop proc total 1 wo_numbers
    (r.1, ev0 :: r.2)

/-! ## Helper lemmas -/

/-- Function `extract_field_by_label` normalises the empty string to `none`, so it can
never return a present-but-empty value. -/
theorem extract_field_by_label_ne_empty (soup : List Node) (s : String) :
    extract_field_by_label soup s ≠ some "" := by
  unfold extract_field_by_label
  split
  · simp
  · split
    · simp
    · split
      · simp
      · dsimp only
        split
        · simp
        · rename_i h
          simp only [ne_eq, Option.some.injEq]
          intro he
          rw [he] at h
          simp at h

/-- On the values `extract_field_by_label` produces, Python truthiness is
plain presence. -/
theorem optTruthy_extract (soup : List Node) (s : String) :
    optTruthy (extract_field_by_label soup s) = (extract_field_by_label soup s).isSome := by
  cases h : extract_field_by_label soup s with
  | none => rfl
  | some t =>
    have ht : t ≠ "" := by
      intro he
      exact extract_field_by_label_ne_empty soup s (he ▸ h)
    simp [optTruthy, ht]

/-- Step 1 of the label-based resolution algorithm: is there a label span
matching the wanted text at all? -/
def hasLabel (soup : List Node) (label_text : String) : Bool :=
  (findPathList (isLabelSpan label_text) [] soup).isSome

/-- When the label is absent, scalar-field resolution short-circuits to
`none`. -/
theorem extract_field_of_no_label {soup : List Node} {s : String}
    (h : hasLabel soup s = false) : extract_field_by_label soup s = none := by
  unfold hasLabel at h
  unfold extract_field_by_label
  cases hf : findPathList (isLabelSpan s) [] soup with
  | none => rfl
  | some r => rw [hf] at h; simp at h

/-- When the label is absent, list-field resolution short-circuits to `[]`. -/
theorem extract_list_of_no_label {soup : List Node} {s : String}
    (h : hasLabel soup s = false) : extract_list_field soup s = [] := by
  unfold hasLabel at h
  unfold extract_list_field
  cases hf : findPathList (isLabelSpan s) [] soup with
  | none => rfl
  | some r => rw [hf] at h; simp at h

/-- When the "IPC" label is absent, classification resolution
short-circuits to `[]`. -/
theorem extract_ipc_of_no_label {soup : List Node}
    (h : hasLabel soup "IPC" = false) : extract_ipc_codes soup = [] := by
  unfold hasLabel at h
  unfold extract_ipc_codes
  cases hf : findPathList (isLabelSpan "IPC") [] soup with
  | none => rfl
  | some r => rw [hf] at h; simp at h

/-- C2: for every rendered document and identifier, `extraction_successful`
is true iff both the publication number and the title resolved to present
(non-empty) values; it is a function of those two resolutions alone, and the
same two fields of the returned record decide it. -/
theorem extraction_success_iff (html : List Node) (wo_number : String) :
    (parse_biblio_data html wo_number).extraction_successful
      = ((extract_field_by_label html "Publication Number").isSome
          && (extract_field_by_label html "Title").isSome)
    ∧ (parse_biblio_data html wo_number).biblio_data.map
          (fun b => b.publication_number.isSome && b.title.isSome)
        = some ((parse_biblio_data html wo_number).extraction_successful) := by
  constructor
  · simp [parse_biblio_data, parse_biblio_data_run, optTruthy_extract]
  · simp [parse_biblio_data, parse_biblio_data_run, optTruthy_extract]

/-- C3: the CPC sequence is not independently anchored: it equals the
IPC-anchored extraction whenever the substring "CPC" occurs in the raw
document text, and is empty otherwise; in particular it then coincides with
the IPC sequence of the record. -/
theorem cpc_codes_follow_ipc (html : List Node) (wo_number : String) :
    (strHasSub (renderList html) "CPC" = true →
        (parse_biblio_data html wo_number).biblio_data.map (·.cpc_codes)
          = some (extract_ipc_codes html)
        ∧ (parse_biblio_data html wo_number).biblio_data.map (·.cpc_codes)
          = (parse_biblio_data html wo_number).biblio_data.map (·.ipc_codes))
    ∧ (strHasSub (renderList html) "CPC" = false →
        (parse_biblio_data html wo_number).biblio_data.map (·.cpc_codes) = some []) := by
  constructor
  · intro h
    simp [parse_biblio_data, parse_biblio_data_run, h]
  · intro h
    simp [parse_biblio_data, parse_biblio_data_run, h]

/-- C10: the record always carries the identifier it was built for, the
constant source tag "WIPO" and a boolean success flag; on the exceptional
path the flag is false and the fields component is the empty mapping, on the
normal path the fields component is present. -/
theorem record_shape (interrupted : Bool) (html : List Node) (wo_number : String) :
    (parse_biblio_data_run interrupted html wo_number).wo_number = wo_number
    ∧ (parse_biblio_data_run interrupted html wo_number).source = "WIPO"
    ∧ (interrupted = true →
        (parse_biblio_data_run interrupted html wo_number).extraction_successful = false
        ∧ (parse_biblio_data_run interrupted html wo_number).biblio_data = none)
    ∧ (interrupted = false →
        (parse_biblio_data_run interrupted html wo_number).biblio_data.isSome = true) := by
  cases interrupted <;> simp [parse_biblio_data_run]

/-- C6: when the "Publication Number" and "Title" labels are absent the
record comes back with `extraction_successful = false`, yet every other field
still equals its own independent resolution — a field failure stays local. -/
theorem partial_extraction (html : List Node) (wo_number : String)
    (h1 : hasLabel html "Publication Number" = false)
    (h2 : hasLabel html "Title" = false) :
    (parse_biblio_data html wo_number).extraction_successful = false
    ∧ (parse_biblio_data html wo_number).biblio_data = some
        { publication_number := none,
          publication_date := extract_field_by_label html "Publication Date",
          application_number := extract_field_by_label html "International Application No",
          filing_date := extract_field_by_label html "International Filing Date",
          title := none,
          abstract := extract_field_by_label html "Abstract",
          applicants := extract_list_field html "Applicants",
          inventors := extract_list_field html "Inventors",
          ipc_codes := extract_ipc_codes html,
          cpc_codes := if strHasSub (renderList html) "CPC" then extract_ipc_codes html else [],
          priority_data := extract_field_by_label html "Priority Data" } := by
  have e1 := extract_field_of_no_label h1
  have e2 := extract_field_of_no_label h2
  constructor
  · simp [parse_biblio_data, parse_biblio_data_run, e1, e2, optTruthy]
  · simp [parse_biblio_data, parse_biblio_data_run, e1, e2]

/-- The label texts `parse_biblio_data` resolves
(src/wipo_crawler.py:325-338). -/
def fieldLabelPatterns : List String :=
  ["Publication Number", "Publication Date", "International Application No",
   "International Filing Date", "Title", "Abstract", "Priority Data",
   "Applicants", "Inventors", "IPC"]

/-- C7: `extract` is total; when no field label resolves, every scalar field
of the record is absent and every list field is the empty sequence, and a
value normalising to the empty string is never reported as present. -/
theorem all_fields_absent (html : List Node) (wo_number : String)
    (h : ∀ pat ∈ fieldLabelPatterns, hasLabel html pat = false) :
    parse_biblio_data html wo_number =
      { wo_number := wo_number, source := "WIPO", extraction_successful := false,
        biblio_data := some
          { publication_number := none, publication_date := none,
            application_number := none, filing_date := none, title := none,
            abstract := none, applicants := [], inventors := [], ipc_codes := [],
            cpc_codes := [], priority_data := none } }
    ∧ ∀ s, extract_field_by_label html s ≠ some "" := by
  refine ⟨?_, fun s => extract_field_by_label_ne_empty html s⟩
  have e1 := extract_field_of_no_label (h "Publication Number" (by simp [fieldLabelPatterns]))
  have e2 := extract_field_of_no_label (h "Publication Date" (by simp [fieldLabelPatterns]))
  have e3 := extract_field_of_no_label (h "International Application No" (by simp [fieldLabelPatterns]))
  have e4 := extract_field_of_no_label (h "International Filing Date" (by simp [fieldLabelPatterns]))
  have e5 := extract_field_of_no_label (h "Title" (by simp [fieldLabelPatterns]))
  have e6 := extract_field_of_no_label (h "Abstract" (by simp [fieldLabelPatterns]))
  have e7 := extract_field_of_no_label (h "Priority Data" (by simp [fieldLabelPatterns]))
  have e8 := extract_list_of_no_label (h "Applicants" (by simp [fieldLabelPatterns]))
  have e9 := extract_list_of_no_label (h "Inventors" (by simp [fieldLabelPatterns]))
  have e10 := extract_ipc_of_no_label (h "IPC" (by simp [fieldLabelPatterns]))
  simp [parse_biblio_data, parse_biblio_data_run, e1, e2, e3, e4, e5, e6, e7, e8, e9,
    e10, optTruthy]

/-! ## Concrete documents used by the witnesses -/

/-- A rendered detail page with publication number, title, applicants and
IPC codes present, and with the text "CPC" occurring in the document. -/
def sampleDetailDoc : List Node := [
  .elem "div" [("class", "ps-field ps-biblio-field")] [
    .elem "span" [("class", "ps-field--label")] [.text "Publication Number"],
    .elem "span" [("class", "ps-field--value")] [.text "WO/2019/028689"]],
  .elem "div" [("class", "ps-field")] [
    .elem "span" [("class", "ps-field--label")] [.text "Title"],
    .elem "span" [("class", "ps-field--value")] [.text "PYRAZOLE COMPOUNDS"]],
  .elem "div" [("class", "ps-field")] [
    .elem "span" [("class", "ps-field--label")] [.text "Applicants"],
    .elem "span" [("class", "ps-field--value")] [
      .elem "span" [("class", "patent-person")] [
        .elem "ul" [("class", "biblio-person-list")] [
          .elem "li" [] [
            .elem "span" [("class", "biblio-person-list--name")] [.text "ACME INC"]]]]]],
  .elem "div" [("class", "ps-field")] [
    .elem "span" [("class", "ps-field--label")] [.text "IPC"],
    .elem "div" [("class", "patent-classification")] [
      .elem "a" [("href", "x")] [.text "C07D 231/14"],
      .elem "span" [] [.text "2006.1"]]],
  .elem "span" [] [.text "CPC"]]

/-- A rendered document holding only a "Publication Date" field. -/
def dateOnlyDoc : List Node := [
  .elem "div" [("class", "ps-field")] [
    .elem "span" [("class", "ps-field--label")] [.text "Publication Date"],
    .elem "span" [("class", "ps-field--value")] [.text "07.02.2019"]]]

/-- A rendered document with no field labels at all. -/
def noLabelDoc : List Node := [
  .elem "p" [] [.text "nothing to see here"]]

/-- Witness for C3 at concrete documents: with "CPC" in the text the CPC
codes equal the IPC-anchored extraction, without it they are empty. -/
theorem cpc_codes_follow_ipc_witness :
    (parse_biblio_data sampleDetailDoc "WO2019028689").biblio_data.map (·.cpc_codes)
      = some (extract_ipc_codes sampleDetailDoc)
    ∧ (parse_biblio_data noLabelDoc "WO0").biblio_data.map (·.cpc_codes) = some [] :=
  ⟨((cpc_codes_follow_ipc sampleDetailDoc "WO2019028689").1 (by decide)).1,
    (cpc_codes_follow_ipc noLabelDoc "WO0").2 (by decide)⟩

/-- Witness for C6 at a concrete document: no publication number or title,
but a publication date — success is false, the date still extracted. -/
theorem partial_extraction_witness :
    (parse_biblio_data dateOnlyDoc "WO7").extraction_successful = false
    ∧ (parse_biblio_data dateOnlyDoc "WO7").biblio_data.map (·.publication_date)
        = some (some "07.02.2019") := by
  have h := partial_extraction dateOnlyDoc "WO7" (by decide) (by decide)
  exact ⟨h.1, by rw [h.2]; decide⟩

/-- Witness for C7 at a concrete document without any labels. -/
theorem all_fields_absent_witness :
    parse_biblio_data noLabelDoc "WO9" =
      { wo_number := "WO9", source := "WIPO", extraction_successful := false,
        biblio_data := some
          { publication_number := none, publication_date := none,
            application_number := none, filing_date := none, title := none,
            abstract := none, applicants := [], inventors := [], ipc_codes := [],
            cpc_codes := [], priority_data := none } } :=
  (all_fields_absent noLabelDoc "WO9" (by decide)).1

/-- Witness for C10 at a concrete interrupted and non-interrupted call. -/
theorem record_shape_witness :
    (parse_biblio_data_run true noLabelDoc "WO0").wo_number = "WO0"
    ∧ (parse_biblio_data_run true noLabelDoc "WO0").source = "WIPO"
    ∧ (parse_biblio_data_run true noLabelDoc "WO0").extraction_successful = false
    ∧ (parse_biblio_data_run true noLabelDoc "WO0").biblio_data = none
    ∧ (parse_biblio_data_run false noLabelDoc "WO0").biblio_data.isSome = true := by
  have h := record_shape true noLabelDoc "WO0"
  have h2 := record_shape false noLabelDoc "WO0"
  exact ⟨h.1, h.2.1, (h.2.2.1 rfl).1, (h.2.2.1 rfl).2, h2.2.2.2 rfl⟩

/-! ## Discovery properties -/

/-- Members of the deduplicated list come from the input and were not
already seen. -/
theorem mem_dedupFirst : ∀ (seen l : List String) (x : String),
    x ∈ dedupFirst seen l → x ∈ l ∧ x ∉ seen := by
  intro seen l
  induction l generalizing seen with
  | nil => intro x hx; simp [dedupFirst] at hx
  | cons a xs ih =>
    intro x hx
    rw [dedupFirst] at hx
    by_cases ha : a ∈ seen
    · rw [if_pos ha] at hx
      rcases ih seen x hx with ⟨h1, h2⟩
      exact ⟨List.mem_cons_of_mem _ h1, h2⟩
    · rw [if_neg ha] at hx
      rcases List.mem_cons.mp hx with he | ht
      · subst he
        exact ⟨List.mem_cons_self _ _, ha⟩
      · rcases ih (a :: seen) x ht with ⟨h1, h2⟩
        exact ⟨List.mem_cons_of_mem _ h1, fun hs => h2 (List.mem_cons_of_mem _ hs)⟩

/-- Every unseen member of the input survives deduplication. -/
theorem mem_dedupFirst_of_mem : ∀ (seen l : List String) (x : String),
    x ∈ l → x ∉ seen → x ∈ dedupFirst seen l := by
  intro seen l
  induction l generalizing seen with
  | nil => intro x hx; simp at hx
  | cons a xs ih =>
    intro x hx hs
    rw [dedupFirst]
    by_cases ha : a ∈ seen
    · rw [if_pos ha]
      rcases List.mem_cons.mp hx with he | ht
      · exact absurd (he ▸ ha) hs
      · exact ih seen x ht hs
    · rw [if_neg ha]
      by_cases he : x = a
      · exact he ▸ List.mem_cons_self _ _
      · rcases List.mem_cons.mp hx with he2 | ht
        · exact absurd he2 he
        · exact List.mem_cons_of_mem _
            (ih (a :: seen) x ht (by simp [he, hs]))

/-- Deduplication only removes elements: the result is a sublist, so the
relative order of the input is preserved. -/
theorem dedupFirst_sublist : ∀ (seen l : List String),
    (dedupFirst seen l).Sublist l := by
  intro seen l
  induction l generalizing seen with
  | nil => simp [dedupFirst]
  | cons a xs ih =>
    rw [dedupFirst]
    by_cases ha : a ∈ seen
    · rw [if_pos ha]
      exact (ih seen).trans (List.sublist_cons_self a xs)
    · rw [if_neg ha]
      exact (ih (a :: seen)).cons₂ a

/-- The deduplicated list has no duplicates. -/
theorem dedupFirst_nodup : ∀ (seen l : List String), (dedupFirst seen l).Nodup := by
  intro seen l
  induction l generalizing seen with
  | nil => simp [dedupFirst]
  | cons a xs ih =>
    rw [dedupFirst]
    by_cases ha : a ∈ seen
    · rw [if_pos ha]; exact ih seen
    · rw [if_neg ha]
      refine List.nodup_cons.mpr ⟨fun hmem => ?_, ih (a :: seen)⟩
      exact (mem_dedupFirst _ _ _ hmem).2 (List.mem_cons_self _ _)

/-- The deduplicated list is sorted by first occurrence in the input: it
keeps the first occurrence of every element. -/
theorem dedupFirst_pairwise : ∀ (seen l : List String),
    (dedupFirst seen l).Pairwise (fun x y => l.indexOf x < l.indexOf y) := by
  intro seen l
  induction l generalizing seen with
  | nil => simp [dedupFirst]
  | cons a xs ih =>
    rw [dedupFirst]
    by_cases ha : a ∈ seen
    · rw [if_pos ha]
      refine ((ih seen).imp_of_mem ?_)
      intro x y hx hy hlt
      have hxa : a ≠ x := fun he => (mem_dedupFirst _ _ _ hx).2 (he ▸ ha)
      have hya : a ≠ y := fun he => (mem_dedupFirst _ _ _ hy).2 (he ▸ ha)
      rw [List.indexOf_cons_ne _ hxa, List.indexOf_cons_ne _ hya]
      exact Nat.succ_lt_succ hlt
    · rw [if_neg ha]
      refine List.pairwise_cons.mpr ⟨?_, ?_⟩
      · intro y hy
        have hya : a ≠ y := fun he =>
          (mem_dedupFirst _ _ _ hy).2 (he ▸ List.mem_cons_self _ _)
        rw [List.indexOf_cons_self, List.indexOf_cons_ne _ hya]
        exact Nat.succ_pos _
      · refine ((ih (a :: seen)).imp_of_mem ?_)
        intro x y hx hy hlt
        have hxa : a ≠ x := fun he =>
          (mem_dedupFirst _ _ _ hx).2 (he ▸ List.mem_cons_self _ _)
        have hya : a ≠ y := fun he =>
          (mem_dedupFirst _ _ _ hy).2 (he ▸ List.mem_cons_self _ _)
        rw [List.indexOf_cons_ne _ hxa, List.indexOf_cons_ne _ hya]
        exact Nat.succ_lt_succ hlt

/-- C5: discovery output is the first-seen deduplication of the scanned WO
numbers truncated to `max_results`: it never exceeds `max_results`, holds no
identifier twice, keeps the relative first-seen order of the response body,
and the deduplication loses no identifier; a transport failure yields `[]`. -/
theorem discovery_bounded_nodup (soup : List Node) (max_results : Nat) :
    search_wipo_wo_numbers true soup max_results
      = (dedupFirst [] (rawWoNumbers soup)).take max_results
    ∧ (search_wipo_wo_numbers true soup max_results).length ≤ max_results
    ∧ (search_wipo_wo_numbers true soup max_results).Nodup
    ∧ (search_wipo_wo_numbers true soup max_results).Sublist (rawWoNumbers soup)
    ∧ (∀ x, x ∈ dedupFirst [] (rawWoNumbers soup) ↔ x ∈ rawWoNumbers soup)
    ∧ (search_wipo_wo_numbers true soup max_results).Pairwise
        (fun x y => (rawWoNumbers soup).indexOf x < (rawWoNumbers soup).indexOf y)
    ∧ search_wipo_wo_numbers false soup max_results = [] := by
  have hdef : search_wipo_wo_numbers true soup max_results
      = (dedupFirst [] (rawWoNumbers soup)).take max_results := rfl
  refine ⟨hdef, ?_, ?_, ?_, ?_, ?_, rfl⟩
  · rw [hdef]
    exact (List.length_take _ _).trans_le (Nat.min_le_left _ _)
  · rw [hdef]
    exact (dedupFirst_nodup [] _).sublist (List.take_sublist _ _)
  · rw [hdef]
    exact (List.take_sublist _ _).trans (dedupFirst_sublist [] _)
  · intro x
    constructor
    · intro hx; exact (mem_dedupFirst _ _ _ hx).1
    · intro hx; exact mem_dedupFirst_of_mem _ _ _ hx (by simp)
  · rw [hdef]
    exact (dedupFirst_pairwise [] _).sublist (List.take_sublist _ _)

/-! ## Coordinator properties -/

/-- The record output of the loop is the `filterMap` of the unit over the
identifiers: one pass, in order, failures skipped, no abort. -/
theorem runLoop_results (proc : String → Option PatentData) (total : Nat) :
    ∀ (l : List String) (i : Nat), (runLoop proc total i l).1 = l.filterMap proc := by
  intro l
  induction l with
  | nil => intro i; rfl
  | cons wo rest ih =>
    intro i
    rw [runLoop]
    cases h : proc wo <;> simp [h, ih (i + 1)]

/-- The callback trace of the loop: one event per identifier, in identifier
order, the `k`-th (0-based) carrying index `i + k`. -/
theorem runLoop_events (proc : String → Option PatentData) (total : Nat) :
    ∀ (l : List String) (i : Nat), (runLoop proc total i l).2
      = (List.range l.length).map (fun k => progressEvent total (i + k) (l.getD k "")) := by
  intro l
  induction l with
  | nil => intro i; rfl
  | cons wo rest ih =>
    intro i
    have hr : (List.range (wo :: rest).length).map
          (fun k => progressEvent total (i + k) ((wo :: rest).getD k ""))
        = progressEvent total i wo
          :: (List.range rest.length).map
              (fun k => progressEvent total ((i + 1) + k) (rest.getD k "")) := by
      rw [List.length_cons, List.range_succ_eq_map, List.map_cons, List.map_map]
      refine congrArg₂ _ rfl ?_
      refine List.map_congr_left ?_
      intro k _
      simp only [Function.comp_apply, List.getD_cons_succ]
      have : i + (k + 1) = (i + 1) + k := by omega
      rw [this]
    rw [runLoop, hr]
    cases h : proc wo <;> simp [h, ih (i + 1)]

/-- A unit returns a record only when the extraction invariant holds. -/
theorem process_wo_safe_success {env : String → FetchEnv} {wo_number : String}
    {r : PatentData} (h : process_wo_safe env wo_number = some r) :
    r.extraction_successful = true := by
  unfold process_wo_safe at h
  rcases hf : fetch_detail_html (env wo_number) with ⟨o, tr⟩
  rw [hf] at h
  cases o with
  | cancelled => simp at h
  | failed => simp at h
  | ok doc =>
    dsimp only at h
    by_cases hre : (renderList doc == "") = true
    · rw [if_pos hre] at h; simp at h
    · rw [if_neg hre] at h
      by_cases hs : (parse_biblio_data doc wo_number).extraction_successful = true
      · rw [if_pos hs] at h
        injection h with h
        rw [← h]
        exact hs
      · rw [if_neg hs] at h; simp at h

/-- C1: the batch entry point processes each discovered identifier exactly
once, in order, with no retries; a failing unit contributes no record and
never aborts the batch, and the returned sequence is exactly the
order-preserving `filterMap` of the unit — all of whose records satisfy the
extraction invariant. -/
theorem batch_results (discovered : List String) (max_results : Nat)
    (env : String → FetchEnv) :
    (search_wipo_patents discovered max_results (process_wo_safe env)).1
      = (discovered.take max_results).filterMap (process_wo_safe env)
    ∧ ∀ r ∈ (search_wipo_patents discovered max_results (process_wo_safe env)).1,
        r.extraction_successful = true := by
  have hmain : (search_wipo_patents discovered max_results (process_wo_safe env)).1
      = (discovered.take max_results).filterMap (process_wo_safe env) := by
    unfold search_wipo_patents
    by_cases h : discovered.isEmpty
    · have he : discovered = [] := List.isEmpty_iff.mp h
      subst he; simp
    · simp [h, runLoop_results]
  refine ⟨hmain, ?_⟩
  intro r hr
  rw [hmain] at hr
  rcases List.mem_filterMap.mp hr with ⟨wo, _, hproc⟩
  exact process_wo_safe_success hproc

/-- C4 (amended): the coordinator fires one progress callback per identifier
in strictly increasing identifier-index order, the `i`-th (1-based, of
`total`) carrying percent `int((i/total)*100)` evaluated in IEEE binary64
arithmetic — truncation of the float product, not `round(i/total*100)` —
after an initial zero-percent callback. -/
theorem progress_callbacks (discovered : List String) (max_results : Nat)
    (proc : String → Option PatentData) :
    (search_wipo_patents discovered max_results proc).2
      = { percent := 0, message := "Searching WIPO..." }
        :: (List.range (discovered.take max_results).length).map
            (fun k => progressEvent (discovered.take max_results).length (k + 1)
                ((discovered.take max_results).getD k "")) := by
  unfold search_wipo_patents
  by_cases h : discovered.isEmpty
  · have he : discovered = [] := List.isEmpty_iff.mp h
    subst he; simp
  · simp only [h, Bool.false_eq_true, if_false]
    refine congrArg₂ _ rfl ?_
    rw [runLoop_events]
    refine List.map_congr_left ?_
    intro k _
    have : 1 + k = k + 1 := by omega
    rw [this]

/-- C4 counterexample: for three identifiers the second callback carries
percent 66 (the binary64 evaluation truncated), while the claimed
`round(i/total*100)` is 67. -/
theorem progress_round_counterexample :
    (search_wipo_patents ["a", "b", "c"] 50 (fun _ => none)).2.map (·.percent)
      = [0, 33, 66, 100]
    ∧ round ((2 : ℚ) / 3 * 100) = 67
    ∧ (66 : ℕ) ≠ 67 := by
  refine ⟨by decide, ?_, by decide⟩
  rw [round_eq]
  norm_num

/-- The binary64 percent model departs from exact truncating division
exactly where Python floats do: at i = 29 of total = 50 (the default
`max_results`) the program reports 57 where exact division gives 58, and
likewise at 29, 57 and 58 of total = 100; at i = 2 of total = 3 float and
exact evaluation agree on 66. -/
theorem pyPercent_float_artifacts :
    pyPercent 29 50 = 57 ∧ 29 * 100 / 50 = 58
    ∧ pyPercent 29 100 = 28 ∧ 29 * 100 / 100 = 29
    ∧ pyPercent 57 100 = 56 ∧ 57 * 100 / 100 = 57
    ∧ pyPercent 58 100 = 57 ∧ 58 * 100 / 100 = 58
    ∧ pyPercent 2 3 = 66 ∧ 2 * 100 / 3 = 66 := by decide

/-! ## Acquisition properties -/

/-- C8: inside one `acquire` call a settle (networkidle) timeout is never
fatal — the outcome is unchanged and the readiness gate is still reached —
while a readiness-gate timeout makes the call fail, close the browser, and
the gate is attempted exactly once (no in-call retry). -/
theorem settle_not_fatal_gate_fatal (env : FetchEnv)
    (hc : env.cancel = none) (hl : env.launchOk = true) (hn : env.navOk = true) :
    (fetch_detail_html { env with settleOk := false }).1
        = (fetch_detail_html { env with settleOk := true }).1
    ∧ (FetchEv.gateWaited ∈ (fetch_detail_html { env with settleOk := false }).2
        ∨ FetchEv.gateTimedOut ∈ (fetch_detail_html { env with settleOk := false }).2)
    ∧ (env.gateOk = false →
        (fetch_detail_html env).1 = FetchOutcome.failed
        ∧ FetchEv.browserClosed ∈ (fetch_detail_html env).2
        ∧ (fetch_detail_html env).2.count FetchEv.gateTimedOut
            + (fetch_detail_html env).2.count FetchEv.gateWaited = 1) := by
  cases hs : env.settleOk <;> cases hg : env.gateOk <;>
    simp [fetch_detail_html, hc, hl, hn, hs, hg, List.count_cons]

/-- C9: every trace of `acquire` ends by leaving the `async_playwright`
context (which terminates the driver and any browser it launched), and on
every non-cancelled path where a browser was launched the explicit
`browser.close()` is also reached — no session outlives the call. -/
theorem every_path_releases_session (env : FetchEnv) :
    (fetch_detail_html env).2.getLast? = some FetchEv.playwrightStopped
    ∧ (FetchEv.launched ∈ (fetch_detail_html env).2
        ∧ (fetch_detail_html env).1.isCancelled = false
        → FetchEv.browserClosed ∈ (fetch_detail_html env).2) := by
  rcases env with ⟨l, n, s, g, c, cc⟩
  cases l <;> cases n <;> cases s <;> cases g <;> rcases cc with _ | p <;>
    (try cases p) <;> simp [fetch_detail_html, FetchOutcome.isCancelled]

/-! ## Witness environments -/

/-- A fetch environment whose readiness gate times out. -/
def witnessEnv : FetchEnv :=
  { launchOk := true, navOk := true, settleOk := true, gateOk := false,
    content := [], cancel := none }

/-- Witness for C8 at a concrete environment. -/
theorem settle_not_fatal_gate_fatal_witness :
    (fetch_detail_html { witnessEnv with settleOk := false }).1
        = (fetch_detail_html { witnessEnv with settleOk := true }).1
    ∧ (fetch_detail_html witnessEnv).1 = FetchOutcome.failed
    ∧ FetchEv.browserClosed ∈ (fetch_detail_html witnessEnv).2 := by
  have h := settle_not_fatal_gate_fatal witnessEnv rfl rfl rfl
  exact ⟨h.1, (h.2.2 rfl).1, (h.2.2 rfl).2.1⟩

/-- Witness for C9 at a concrete environment. -/
theorem every_path_releases_session_witness :
    FetchEv.browserClosed ∈ (fetch_detail_html witnessEnv).2 :=
  (every_path_releases_session witnessEnv).2 ⟨by decide, by decide⟩

/-- A per-identifier environment: the first identifier renders the sample
document, the readiness gate of every other identifier times out. -/
def sampleBatchEnv : String → FetchEnv := fun wo_number =>
  if wo_number = "WO2019028689" then
    { launchOk := true, navOk := true, settleOk := true, gateOk := true,
      content := sampleDetailDoc, cancel := none }
  else
    { launchOk := true, navOk := true, settleOk := true, gateOk := false,
      content := [], cancel := none }

/-- Witness for C1 at a concrete batch: the failing identifier is skipped,
the surviving record satisfies the invariant. -/
theorem batch_results_witness :
    (search_wipo_patents ["WO2019028689", "WOFAIL"] 5 (process_wo_safe sampleBatchEnv)).1
      = [parse_biblio_data sampleDetailDoc "WO2019028689"]
    ∧ (parse_biblio_data sampleDetailDoc "WO2019028689").extraction_successful = true := by
  refine ⟨by decide, ?_⟩
  exact (batch_results ["WO2019028689", "WOFAIL"] 5 sampleBatchEnv).2 _ (by decide)

end Wipo
